import Mathlib

/-!
Verification of the authentication/session-token subsystem of the CodeCraft
student-tracking application (scrypt password hashing, JWT access/refresh
tokens, blacklist/revocation store, auth middleware).

The TypeScript source is shallowly embedded:
* strings are `String`/`List Char`; JavaScript `string.split(sep)` is `jsSplit`;
* Node `Buffer` values are `List Nat` of byte values (< 256), hex codecs are
  `hexEncode`/`hexDecode` (`Buffer.toString "hex"` / `Buffer.from s "hex"`);
* `crypto.scrypt` with fixed key length is an abstract parameter
  `scryptFn : List Char → List Char → List Nat` (deterministic, as the real
  KDF is for a fixed password and salt);
* a thrown exception in synchronous/awaited code is `Except.error`;
* JWT signature checking is an environment function
  `decodeAccess`/`decodeRefresh : String → Option payload` (`none` = malformed
  or wrong signature); the expiry comparisons done by `jsonwebtoken`
  (reject iff `now ≥ exp`) are embedded explicitly, on a single abstract
  clock `now : Nat`;
* the relational store is explicit state: `List RefreshTokenRecord` for the
  `refresh_tokens` table and `List BlacklistedTokenEntry` for
  `blacklisted_tokens`; single-statement inserts/deletes are cons/filter.
-/

namespace CodeCraft

/-! ### Byte/hex codec (Node `Buffer` hex round-trip) -/

/-- Hex digit for a nibble, lowercase, as produced by `buf.toString("hex")`. -/
def hexDigitChar (n : Nat) : Char :=
  Char.ofNat (if n < 10 then 48 + n else 87 + n)

/-- `buf.toString("hex")`: two lowercase hex digits per byte. -/
def hexEncode : List Nat → List Char
  | [] => []
  | b :: bs => hexDigitChar (b / 16 % 16) :: hexDigitChar (b % 16) :: hexEncode bs

/-- Value of one hex digit, accepting both cases, as `Buffer.from(·,"hex")` does. -/
def hexCharVal (c : Char) : Option Nat :=
  if 48 ≤ c.toNat ∧ c.toNat ≤ 57 then some (c.toNat - 48)
  else if 97 ≤ c.toNat ∧ c.toNat ≤ 102 then some (c.toNat - 87)
  else if 65 ≤ c.toNat ∧ c.toNat ≤ 70 then some (c.toNat - 55)
  else none

/-- `Buffer.from(s, "hex")`: decode pairs of hex digits, stopping at the first
invalid pair or a trailing odd digit (Node's behaviour: no exception). -/
def hexDecode : List Char → List Nat
  | c1 :: c2 :: rest =>
    match hexCharVal c1, hexCharVal c2 with
    | some hi, some lo => (16 * hi + lo) :: hexDecode rest
    | _, _ => []
  | _ => []

/-! ### JavaScript `String.prototype.split` on a single-character separator -/

/-- `s.split(sep)` for a one-character separator: all parts, empty parts kept. -/
def jsSplit (sep : Char) : List Char → List (List Char)
  | [] => [[]]
  | c :: rest =>
    match jsSplit sep rest with
    | part :: parts => if c = sep then [] :: part :: parts else (c :: part) :: parts
    | [] => [[]]

/-! ### Password hashing (`hashPassword` / `comparePasswords` in the auth module)

`comparePasswords` in the source is
```
const [hashed, salt] = stored.split(".");
const hashedBuf = Buffer.from(hashed, "hex");
const suppliedBuf = (await scryptAsync(supplied, salt, 64)) as Buffer;
return timingSafeEqual(hashedBuf, suppliedBuf);
```
with no try/catch.  Two exception paths are embedded as `Except.error`:
`scrypt` throws a `TypeError` when `salt` is `undefined` (no `"."` in the
stored string), and `timingSafeEqual` throws a `RangeError` when the two
buffers have different lengths. -/

inductive CompareError
  /-- `stored.split(".")` produced no second component, so `salt` is
  `undefined` and `crypto.scrypt` throws a `TypeError`. -/
  | saltUndefined
  /-- the two buffers passed to `crypto.timingSafeEqual` have different
  lengths, so it throws a `RangeError`. -/
  | lengthMismatch
deriving DecidableEq

instance {ε α : Type} [DecidableEq ε] [DecidableEq α] : DecidableEq (Except ε α) := fun x y =>
  match x, y with
  | .ok a, .ok b =>
    if h : a = b then isTrue (by rw [h]) else
      isFalse (by intro hc; injection hc; contradiction)
  | .error a, .error b =>
    if h : a = b then isTrue (by rw [h]) else
      isFalse (by intro hc; injection hc; contradiction)
  | .ok _, .error _ => isFalse (by intro hc; exact Except.noConfusion hc)
  | .error _, .ok _ => isFalse (by intro hc; exact Except.noConfusion hc)

def comparePasswords (scryptFn : List Char → List Char → List Nat)
    (supplied stored : List Char) : Except CompareError Bool :=
  let parts := jsSplit '.' stored
  let hashed := parts.headD []
  match parts.get? 1 with
  | none => .error .saltUndefined
  | some salt =>
    let hashedBuf := hexDecode hashed
    let suppliedBuf := scryptFn supplied salt
    if hashedBuf.length = suppliedBuf.length then .ok (hashedBuf == suppliedBuf)
    else .error .lengthMismatch

/-- `hashPassword`: `salt = randomBytes(16).toString("hex")`;
`buf = await scryptAsync(password, salt, 64)`; returns
`buf.toString("hex") + "." + salt`.  The random 16 salt bytes are a
parameter. -/
def hashPassword (scryptFn : List Char → List Char → List Nat)
    (saltBytes : List Nat) (password : List Char) : List Char :=
  let salt := hexEncode saltBytes
  let buf := scryptFn password salt
  hexEncode buf ++ '.' :: salt

/-- A stand-in scrypt used only to evaluate concrete scenarios (the real KDF is
an opaque cryptographic primitive; every theorem quantifies over `scryptFn`). -/
def demoScrypt (_password _salt : List Char) : List Nat := List.replicate 64 0

/-- Marks the supplied-password argument so a key derived from a *different*
password can be told apart in concrete scenarios. -/
def demoScryptKeyed (password _salt : List Char) : List Nat :=
  if password = ['r', 'i', 'g', 'h', 't'] then [0] else [1]

/-! ### JWT token layer (`jwt` module) and the token store (`DatabaseStorage`)

`jwt.verify` is split into an abstract signature/parse step (the environment
functions below) and the expiry comparison it performs (`jsonwebtoken`
rejects a token iff `clockTimestamp ≥ payload.exp`), which is embedded
explicitly against a single abstract clock `now`. -/

/-- Claim set of an access token (`JWTPayload` in the source). -/
structure JWTPayload where
  userId : String
  email : String
  role : String
  exp : Nat
deriving DecidableEq

/-- Claim set of a refresh token (`RefreshTokenPayload` in the source). -/
structure RefreshTokenPayload where
  userId : String
  tokenId : String
  exp : Nat
deriving DecidableEq

/-- A row of the `refresh_tokens` table: only the random `tokenId` is stored
in the `token` column, never the signed JWT. -/
structure RefreshTokenRecord where
  userId : String
  token : String
  expiresAt : Nat
deriving DecidableEq

/-- A row of the `blacklisted_tokens` table: the literal signed access token
plus its expiry instant. -/
structure BlacklistedTokenEntry where
  token : String
  expiresAt : Nat
deriving DecidableEq

/-- A user row, restricted to the fields the auth layer reads. -/
structure UserRec where
  id : String
  email : String
  password : String
  role : String
deriving DecidableEq

/-- Abstract environment: JWT signature checking under the two independent
secrets, and the user table.  `decodeAccess t = none` models a token that is
malformed or not signed with `JWT_SECRET` (`jwt.verify` throws);
`some p` models a token whose signature verifies and carries payload `p`.
Likewise `decodeRefresh` under `REFRESH_SECRET`. -/
structure TokenEnv where
  decodeAccess : String → Option JWTPayload
  decodeRefresh : String → Option RefreshTokenPayload
  getUser : String → Option UserRec
  getUserByEmail : String → Option UserRec

/-- `verifyAccessToken`: `jwt.verify(token, JWT_SECRET)`, returning `null` on
any failure — bad signature, malformed token, or `now ≥ exp`. -/
def verifyAccessToken (env : TokenEnv) (now : Nat) (t : String) : Option JWTPayload :=
  match env.decodeAccess t with
  | none => none
  | some p => if p.exp ≤ now then none else some p

/-- `DatabaseStorage.getRefreshToken`: select the row whose `token` column
equals the `tokenId` and whose `userId` matches. -/
def getRefreshToken (store : List RefreshTokenRecord) (tokenId userId : String) :
    Option RefreshTokenRecord :=
  store.find? (fun r => r.token == tokenId && r.userId == userId)

/-- `verifyRefreshToken`: `jwt.verify(token, REFRESH_SECRET)`, then the
required store lookup; `null` if the record is missing or
`storedToken.expiresAt < new Date()`. -/
def verifyRefreshToken (env : TokenEnv) (store : List RefreshTokenRecord) (now : Nat)
    (t : String) : Option RefreshTokenPayload :=
  match env.decodeRefresh t with
  | none => none
  | some p =>
    if p.exp ≤ now then none
    else
      match getRefreshToken store p.tokenId p.userId with
      | none => none
      | some stored => if stored.expiresAt < now then none else some p

/-- `DatabaseStorage.revokeRefreshToken`: delete the rows matching
`(tokenId, userId)`. -/
def revokeRefreshToken (store : List RefreshTokenRecord) (tokenId userId : String) :
    List RefreshTokenRecord :=
  store.filter (fun r => !(r.token == tokenId && r.userId == userId))

/-- `DatabaseStorage.revokeAllRefreshTokens`: delete every row of the user. -/
def revokeAllRefreshTokens (store : List RefreshTokenRecord) (userId : String) :
    List RefreshTokenRecord :=
  store.filter (fun r => !(r.userId == userId))

/-- `DatabaseStorage.isTokenBlacklisted`: existence check on the literal
token string; note the query does **not** look at `expiresAt`. -/
def isTokenBlacklisted (bl : List BlacklistedTokenEntry) (t : String) : Bool :=
  bl.any (fun e => e.token == t)

/-- `blacklistToken` in the `jwt` module: decode the token's own expiry and
insert a row; if `jwt.verify` throws (malformed, wrong signature, or already
expired since `now ≥ exp`), the catch block makes this a silent no-op. -/
def blacklistTokenOp (env : TokenEnv) (now : Nat) (bl : List BlacklistedTokenEntry)
    (t : String) : List BlacklistedTokenEntry :=
  match env.decodeAccess t with
  | none => bl
  | some p => if p.exp ≤ now then bl else ⟨t, p.exp⟩ :: bl

/-- `DatabaseStorage.cleanupExpiredTokens`: the periodic sweep deletes every
row whose `expiresAt < now`. -/
def cleanupExpiredTokens (now : Nat) (store : List RefreshTokenRecord)
    (bl : List BlacklistedTokenEntry) : List RefreshTokenRecord × List BlacklistedTokenEntry :=
  (store.filter (fun r => !(r.expiresAt < now)), bl.filter (fun e => !(e.expiresAt < now)))

/-! ### Auth middleware (`authenticateToken`) and the HTTP handlers -/

/-- The parts of an incoming request the auth layer reads. `none` models an
absent header/cookie (`undefined`). -/
structure AuthRequest where
  authHeader : Option String
  cookieAccessToken : Option String
  cookieRefreshToken : Option String

/-- Token extraction in `authenticateToken`:
`token = authHeader && authHeader.split(' ')[1]`,
`finalToken = token || req.cookies?.accessToken`, and the subsequent
`if (!finalToken)` guard.  JavaScript truthiness is embedded: an empty string
is falsy, so a falsy `finalToken` is normalised to `none` here. -/
def extractToken (req : AuthRequest) : Option String :=
  let token : Option String :=
    match req.authHeader with
    | none => none
    | some h => if h = "" then some "" else ((jsSplit ' ' h.data).get? 1).map String.mk
  let finalToken : Option String :=
    match token with
    | some s => if s = "" then req.cookieAccessToken else some s
    | none => req.cookieAccessToken
  match finalToken with
  | some s => if s = "" then none else some s
  | none => none

/-- Outcome of the middleware: an early `401` response, or the request
proceeds with the resolved user attached. -/
inductive AuthResult
  | reject (status : Nat) (error : String) (code : String)
  | proceed (u : UserRec)
deriving DecidableEq

/-- `authenticateToken`: missing-token check, then blacklist, then signature
and expiry, then user lookup. -/
def authenticateToken (env : TokenEnv) (bl : List BlacklistedTokenEntry) (now : Nat)
    (req : AuthRequest) : AuthResult :=
  match extractToken req with
  | none => .reject 401 "Access token is required" "TOKEN_MISSING"
  | some t =>
    if isTokenBlacklisted bl t then .reject 401 "Token has been revoked" "TOKEN_REVOKED"
    else
      match verifyAccessToken env now t with
      | none => .reject 401 "Invalid or expired token" "TOKEN_INVALID"
      | some payload =>
        match env.getUser payload.userId with
        | none => .reject 401 "User not found" "USER_NOT_FOUND"
        | some u => .proceed u

/-- Environment for concrete refresh-token scenarios: one refresh token
`"tokR"` for user `"u1"` with token id `"tid1"`, self-expiring at 1000. -/
def cEnvRefresh : TokenEnv where
  decodeAccess := fun _ => none
  decodeRefresh := fun t => if t = "tokR" then some ⟨"u1", "tid1", 1000⟩ else none
  getUser := fun _ => none
  getUserByEmail := fun _ => none

/-- Environment for concrete middleware scenarios: access token `"tokA"` with
a valid signature, payload for user `"u1"`, expiring at 1000; `"u1"` exists. -/
def cEnvAuth : TokenEnv where
  decodeAccess := fun t => if t = "tokA" then some ⟨"u1", "a@x.io", "student", 1000⟩ else none
  decodeRefresh := fun _ => none
  getUser := fun i => if i = "u1" then some ⟨"u1", "a@x.io", "stored.hash", "student"⟩ else none
  getUserByEmail := fun _ => none

/-- Request presenting `"tokA"` via `Authorization: Bearer tokA`. -/
def cReqAuth : AuthRequest where
  authHeader := some "Bearer tokA"
  cookieAccessToken := none
  cookieRefreshToken := none

/-- Environment for expired-row scenarios: access token `"tokB"` expiring at
50, refresh token `"tokS"` (id `"tid2"`, user `"u2"`) self-expiring at 1000. -/
def cEnvExpiry : TokenEnv where
  decodeAccess := fun t => if t = "tokB" then some ⟨"u2", "b@x.io", "student", 50⟩ else none
  decodeRefresh := fun t => if t = "tokS" then some ⟨"u2", "tid2", 1000⟩ else none
  getUser := fun i => if i = "u2" then some ⟨"u2", "b@x.io", "stored.hash", "student"⟩ else none
  getUserByEmail := fun _ => none

/-- Request presenting `"tokB"`. -/
def cReqExpiry : AuthRequest where
  authHeader := some "Bearer tokB"
  cookieAccessToken := none
  cookieRefreshToken := none

/-! ### HTTP handlers: login and logout -/

/-- A JSON response as the handlers build it: status code, the `error` or
`message` string, and the optional machine-readable `code`. -/
structure ApiResponse where
  status : Nat
  message : String
  code : Option String
deriving DecidableEq

/-- Token-store state threaded through the handlers. -/
structure TokenStoreState where
  refreshStore : List RefreshTokenRecord
  blacklist : List BlacklistedTokenEntry
deriving DecidableEq

/-- The `POST /api/login` handler after input validation: look the user up by
email, verify the password, and answer.  Both failure branches return the
same `401 "Invalid credentials" / INVALID_CREDENTIALS` response; a thrown
`comparePasswords` error is caught by the handler's `try/catch` and surfaces
as `500 LOGIN_ERROR`. -/
def loginHandler (env : TokenEnv) (scryptFn : List Char → List Char → List Nat)
    (email password : String) : ApiResponse :=
  match env.getUserByEmail email with
  | none => ⟨401, "Invalid credentials", some "INVALID_CREDENTIALS"⟩
  | some u =>
    match comparePasswords scryptFn password.data u.password.data with
    | .ok true => ⟨200, "Login successful", none⟩
    | .ok false => ⟨401, "Invalid credentials", some "INVALID_CREDENTIALS"⟩
    | .error _ => ⟨500, "Internal server error", some "LOGIN_ERROR"⟩

/-- The `POST /api/logout` handler body (it runs only after
`authenticateToken` has let the request through):
`accessToken = req.cookies?.accessToken || authHeader.split(' ')[1]`,
blacklist it if truthy; verify the refresh cookie and revoke its record if
the verification succeeds; always answer `200 "Logout successful"`. -/
def logoutHandler (env : TokenEnv) (now : Nat) (st : TokenStoreState)
    (req : AuthRequest) : ApiResponse × TokenStoreState :=
  let headerTok : Option String :=
    req.authHeader.bind (fun h => ((jsSplit ' ' h.data).get? 1).map String.mk)
  let accessToken : Option String :=
    match req.cookieAccessToken with
    | some c => if c = "" then headerTok else some c
    | none => headerTok
  let bl1 :=
    match accessToken with
    | some t => if t = "" then st.blacklist else blacklistTokenOp env now st.blacklist t
    | none => st.blacklist
  let rs1 :=
    match req.cookieRefreshToken with
    | some rt =>
      if rt = "" then st.refreshStore
      else
        match verifyRefreshToken env st.refreshStore now rt with
        | some p => revokeRefreshToken st.refreshStore p.tokenId p.userId
        | none => st.refreshStore
    | none => st.refreshStore
  (⟨200, "Logout successful", none⟩, ⟨rs1, bl1⟩)

/-- The `POST /api/logout` route as registered:
`app.post("/api/logout", authenticateToken, handler)` — the middleware runs
first and can short-circuit with a `401`. -/
def logoutRoute (env : TokenEnv) (now : Nat) (st : TokenStoreState)
    (req : AuthRequest) : ApiResponse × TokenStoreState :=
  match authenticateToken env st.blacklist now req with
  | .reject s e c => (⟨s, e, some c⟩, st)
  | .proceed _ => logoutHandler env now st req

/-- Environment for the logout counterexample: no token has a valid
signature. -/
def cEnvLogout : TokenEnv where
  decodeAccess := fun _ => none
  decodeRefresh := fun _ => none
  getUser := fun _ => none
  getUserByEmail := fun _ => none

/-- Logout request presenting an invalid access token and a refresh cookie. -/
def cReqLogout : AuthRequest where
  authHeader := some "Bearer badtoken"
  cookieAccessToken := none
  cookieRefreshToken := some "badrefresh"

/-- Environment for the logout witness: `"tokA2"` is a valid access token of
the existing user `"u3"`; the refresh token `"refX"` has a valid signature
but no backing record. -/
def cEnvLogoutOk : TokenEnv where
  decodeAccess := fun t => if t = "tokA2" then some ⟨"u3", "c@x.io", "student", 1000⟩ else none
  decodeRefresh := fun t => if t = "refX" then some ⟨"u3", "tidX", 1000⟩ else none
  getUser := fun i => if i = "u3" then some ⟨"u3", "c@x.io", "stored.hash", "student"⟩ else none
  getUserByEmail := fun _ => none

/-- Logout request with a valid access token and an already-revoked refresh
token. -/
def cReqLogoutOk : AuthRequest where
  authHeader := some "Bearer tokA2"
  cookieAccessToken := none
  cookieRefreshToken := some "refX"

/-- Environment for the login witness: one user whose stored credential is
`"00.aa"` under the marked scrypt (`demoScryptKeyed`), so the password
`"wrong"` re-derives `[1] ≠ [0]` and verification returns `false`. -/
def cEnvLogin : TokenEnv where
  decodeAccess := fun _ => none
  decodeRefresh := fun _ => none
  getUser := fun _ => none
  getUserByEmail := fun e => if e = "ada@x.io" then some ⟨"u4", "ada@x.io", "00.aa", "student"⟩ else none

/-- Environment for the login witness with no users at all. -/
def cEnvLoginEmpty : TokenEnv where
  decodeAccess := fun _ => none
  decodeRefresh := fun _ => none
  getUser := fun _ => none
  getUserByEmail := fun _ => none

/-! ### Password policy (`password-validation` module)

The zod schema `passwordValidationSchema` and the scorer
`calculatePasswordStrength` test the candidate with JavaScript regexes; each
regex is embedded by its matching semantics:
* `/[a-z]/`, `/[A-Z]/`, `/[0-9]/`, `/[^a-zA-Z0-9]/` — some character in the
  code-point range / outside the three ranges;
* `/123456/` — literal substring (no `i` flag);
* `/password/i` … `/login/i` — substring of the lowercased string;
* the sequential-pattern alternation — one of the listed 3-character strings
  occurs, case-insensitively;
* the repeated-characters regex — some character occurs 3+ times
  consecutively, where the regex dot (no `s` flag) does not match a line
  terminator (LF, CR, U+2028, U+2029). -/

def isLowerAlpha (c : Char) : Bool := 97 ≤ c.toNat && c.toNat ≤ 122

def isUpperAlpha (c : Char) : Bool := 65 ≤ c.toNat && c.toNat ≤ 90

def isDigitChar (c : Char) : Bool := 48 ≤ c.toNat && c.toNat ≤ 57

def isSpecialChar (c : Char) : Bool := !(isLowerAlpha c || isUpperAlpha c || isDigitChar c)

/-- `password.toLowerCase()` (and the effect of a regex `i` flag on an ASCII
pattern). -/
def lowerStr (p : List Char) : List Char := p.map Char.toLower

/-- `regex.test`: the literal `needle` occurs somewhere in `hay`. -/
def containsSub (needle hay : List Char) : Bool := decide (needle <:+: hay)

/-- The `commonPatterns` denylist test of the schema: `/123456/` (no `i`
flag) and the five case-insensitive words. -/
def hasCommonPattern (p : List Char) : Bool :=
  containsSub ['1', '2', '3', '4', '5', '6'] p
  || containsSub ['p', 'a', 's', 's', 'w', 'o', 'r', 'd'] (lowerStr p)
  || containsSub ['q', 'w', 'e', 'r', 't', 'y'] (lowerStr p)
  || containsSub ['a', 'd', 'm', 'i', 'n'] (lowerStr p)
  || containsSub ['u', 's', 'e', 'r'] (lowerStr p)
  || containsSub ['l', 'o', 'g', 'i', 'n'] (lowerStr p)

/-- The alternatives of the sequential-characters regex, in source order. -/
def seqTriples : List (List Char) :=
  [['a', 'b', 'c'], ['b', 'c', 'd'], ['c', 'd', 'e'], ['d', 'e', 'f'], ['e', 'f', 'g'],
   ['f', 'g', 'h'], ['g', 'h', 'i'], ['h', 'i', 'j'], ['i', 'j', 'k'], ['j', 'k', 'l'],
   ['k', 'l', 'm'], ['l', 'm', 'n'], ['m', 'n', 'o'], ['n', 'o', 'p'], ['o', 'p', 'q'],
   ['p', 'q', 'r'], ['q', 'r', 's'], ['r', 's', 't'], ['s', 't', 'u'], ['t', 'u', 'v'],
   ['u', 'v', 'w'], ['v', 'w', 'x'], ['w', 'x', 'y'], ['x', 'y', 'z'],
   ['0', '1', '2'], ['1', '2', '3'], ['2', '3', '4'], ['3', '4', '5'], ['4', '5', '6'],
   ['5', '6', '7'], ['6', '7', '8'], ['7', '8', '9']]

/-- Scan of the (lowercased) characters for an alternative of the sequential
regex: some window of 3 consecutive characters is one of `seqTriples`. -/
def hasSequentialLowered : List Char → Bool
  | a :: b :: c :: rest => seqTriples.contains [a, b, c] || hasSequentialLowered (b :: c :: rest)
  | _ => false

/-- The schema's sequential-characters check (`i` flag: both the candidate
and the all-lowercase alternatives are compared lowercased). -/
def hasSequential (p : List Char) : Bool := hasSequentialLowered (lowerStr p)

/-- Characters matched by `.` in a JavaScript regex without the `s` flag. -/
def isRegexDotChar (c : Char) : Bool :=
  !(c == '\n' || c == '\r' || c == '\u2028' || c == '\u2029')

/-- The repeated-characters regex `/(.)\1{2,}/`: some character that `.` can
match occurs at least 3 times consecutively. -/
def hasRepeated : List Char → Bool
  | a :: b :: c :: rest => (isRegexDotChar a && a == b && b == c) || hasRepeated (b :: c :: rest)
  | _ => false

/-- `passwordValidationSchema`: a candidate parses successfully iff every
chained check passes. -/
def passwordValidationAccepts (p : List Char) : Bool :=
  decide (8 ≤ p.length) && decide (p.length ≤ 128)
  && p.any isLowerAlpha && p.any isUpperAlpha && p.any isDigitChar && p.any isSpecialChar
  && !hasCommonPattern p && !hasSequential p && !hasRepeated p

inductive PasswordStrength
  | veryWeak | weak | fair | good | strong
deriving DecidableEq

/-- Result record of `calculatePasswordStrength`. -/
structure StrengthAnalysis where
  score : Nat
  strength : PasswordStrength
  feedback : List String
deriving DecidableEq

/-- `calculatePasswordStrength`: the 0–9 score (three length points, four
character-class points, two pattern points), the feedback messages pushed in
source order, and the banding of the score. -/
def calculatePasswordStrength (p : List Char) : StrengthAnalysis :=
  let score :=
    (if 8 ≤ p.length then 1 else 0) + (if 12 ≤ p.length then 1 else 0)
    + (if 16 ≤ p.length then 1 else 0)
    + (if p.any isLowerAlpha then 1 else 0) + (if p.any isUpperAlpha then 1 else 0)
    + (if p.any isDigitChar then 1 else 0) + (if p.any isSpecialChar then 1 else 0)
    + (if hasRepeated p then 0 else 1) + (if hasSequential p then 0 else 1)
  let feedback :=
    (if p.length < 8 then ["Use at least 8 characters"] else [])
    ++ (if p.any isLowerAlpha then [] else ["Add lowercase letters"])
    ++ (if p.any isUpperAlpha then [] else ["Add uppercase letters"])
    ++ (if p.any isDigitChar then [] else ["Add numbers"])
    ++ (if p.any isSpecialChar then [] else ["Add special characters"])
    ++ (if hasRepeated p then ["Avoid repeated characters"] else [])
    ++ (if hasSequential p then ["Avoid sequential characters"] else [])
  let strength :=
    if score ≤ 2 then PasswordStrength.veryWeak
    else if score ≤ 4 then PasswordStrength.weak
    else if score ≤ 6 then PasswordStrength.fair
    else if score ≤ 8 then PasswordStrength.good
    else PasswordStrength.strong
  ⟨score, strength, feedback⟩

/-- The weak-password rejection branch of the `POST /api/register` handler:
`strength === "very-weak" || strength === "weak"`. -/
def registrationRejectsAsWeak (p : List Char) : Bool :=
  (calculatePasswordStrength p).strength == PasswordStrength.veryWeak
  || (calculatePasswordStrength p).strength == PasswordStrength.weak

/-- The five score bands with their thresholds, as the spec states them:
`very-weak` (≤2), `weak` (≤4), `fair` (≤6), `good` (≤8), `strong` (9). -/
def specBand (n : Nat) : PasswordStrength :=
  if n ≤ 2 then PasswordStrength.veryWeak
  else if n ≤ 4 then PasswordStrength.weak
  else if n ≤ 6 then PasswordStrength.fair
  else if n ≤ 8 then PasswordStrength.good
  else PasswordStrength.strong

/-! ### The password hard gate against the spec's wording (C7)

The spec-side predicates below follow the claim's words: denylist substrings
compared case-insensitively, a 3-character ascending run of letters
(case-insensitive) or digits, and a character repeated 3+ times
consecutively. -/

/-- Spec wording: the candidate contains one of the six denylist substrings,
all compared case-insensitively. -/
def specDenylisted (p : List Char) : Bool :=
  containsSub ['1', '2', '3', '4', '5', '6'] (lowerStr p)
  || containsSub ['p', 'a', 's', 's', 'w', 'o', 'r', 'd'] (lowerStr p)
  || containsSub ['q', 'w', 'e', 'r', 't', 'y'] (lowerStr p)
  || containsSub ['a', 'd', 'm', 'i', 'n'] (lowerStr p)
  || containsSub ['u', 's', 'e', 'r'] (lowerStr p)
  || containsSub ['l', 'o', 'g', 'i', 'n'] (lowerStr p)

/-- Three already-lowercased characters form an ascending run: consecutive
code points, all lowercase letters or all digits. -/
def ascLowered (u v w : Char) : Bool :=
  (isLowerAlpha u && isLowerAlpha v && isLowerAlpha w
    || isDigitChar u && isDigitChar v && isDigitChar w)
  && v.toNat == u.toNat + 1 && w.toNat == v.toNat + 1

/-- Spec wording: `a b c` is a 3-character ascending run of letters
(case-insensitively) or digits. -/
def specAscTriple (a b c : Char) : Bool :=
  ascLowered a.toLower b.toLower c.toLower

/-- Spec wording: the candidate contains a 3-character ascending run. -/
def specHasAscendingRun : List Char → Bool
  | a :: b :: c :: rest => specAscTriple a b c || specHasAscendingRun (b :: c :: rest)
  | _ => false

/-- Spec wording: some character (any character) is repeated 3 or more times
consecutively. -/
def specHasTripleRepeat : List Char → Bool
  | a :: b :: c :: rest => (a == b && b == c) || specHasTripleRepeat (b :: c :: rest)
  | _ => false

/-- The hard gate exactly as the claim words it. -/
def specPasswordAccept (p : List Char) : Bool :=
  decide (8 ≤ p.length) && decide (p.length ≤ 128)
  && p.any isLowerAlpha && p.any isUpperAlpha && p.any isDigitChar && p.any isSpecialChar
  && !specDenylisted p && !specHasAscendingRun p && !specHasTripleRepeat p

/-- The repeated-run condition the code actually enforces: only characters
the regex dot can match (i.e. not line terminators) count. -/
def specHasTripleRepeatAmended : List Char → Bool
  | a :: b :: c :: rest =>
    (isRegexDotChar a && a == b && b == c) || specHasTripleRepeatAmended (b :: c :: rest)
  | _ => false

/-- The amended gate: as the claim, except that a repeated run of a line
terminator is not rejected. -/
def specPasswordAcceptAmended (p : List Char) : Bool :=
  decide (8 ≤ p.length) && decide (p.length ≤ 128)
  && p.any isLowerAlpha && p.any isUpperAlpha && p.any isDigitChar && p.any isSpecialChar
  && !specDenylisted p && !specHasAscendingRun p && !specHasTripleRepeatAmended p

theorem toNat_ofNat_of_valid {n : Nat} (h : n.isValidChar) : (Char.ofNat n).toNat = n := by
  rw [Char.ofNat, dif_pos h]
  rfl

theorem isValidChar_of_lt {n : Nat} (h : n < 0xd800) : n.isValidChar := Or.inl h

theorem hexCharVal_hexDigitChar {n : Nat} (h : n < 16) : hexCharVal (hexDigitChar n) = some n := by
  unfold hexDigitChar hexCharVal
  by_cases h10 : n < 10
  · rw [if_pos h10, toNat_ofNat_of_valid (isValidChar_of_lt (by omega))]
    rw [if_pos (by omega)]
    simp only [Option.some.injEq]
    omega
  · rw [if_neg h10, toNat_ofNat_of_valid (isValidChar_of_lt (by omega))]
    rw [if_neg (by omega), if_pos (by omega)]
    simp only [Option.some.injEq]
    omega

theorem hexDigitChar_toNat_lower {n : Nat} (h : n < 16) : 48 ≤ (hexDigitChar n).toNat := by
  unfold hexDigitChar
  by_cases h10 : n < 10
  · rw [if_pos h10, toNat_ofNat_of_valid (isValidChar_of_lt (by omega))]; omega
  · rw [if_neg h10, toNat_ofNat_of_valid (isValidChar_of_lt (by omega))]; omega

theorem hexDigitChar_ne_dot {n : Nat} (h : n < 16) : hexDigitChar n ≠ '.' := by
  intro he
  have h48 := hexDigitChar_toNat_lower h
  rw [he] at h48
  exact absurd h48 (by decide)

theorem dot_not_mem_hexEncode (bs : List Nat) : '.' ∉ hexEncode bs := by
  induction bs with
  | nil => simp [hexEncode]
  | cons b bs ih =>
    simp only [hexEncode, List.mem_cons, not_or]
    refine ⟨?_, ?_, ih⟩
    · exact fun he => hexDigitChar_ne_dot (by omega) he.symm
    · exact fun he => hexDigitChar_ne_dot (by omega) he.symm

theorem hexDecode_hexEncode {bs : List Nat} (h : ∀ b ∈ bs, b < 256) :
    hexDecode (hexEncode bs) = bs := by
  induction bs with
  | nil => rfl
  | cons b bs ih =>
    have hb : b < 256 := h b (by simp)
    have hrest : ∀ x ∈ bs, x < 256 := fun x hx => h x (by simp [hx])
    simp only [hexEncode, hexDecode,
      hexCharVal_hexDigitChar (show b / 16 % 16 < 16 by omega),
      hexCharVal_hexDigitChar (show b % 16 < 16 by omega), ih hrest]
    have hb16 : 16 * (b / 16 % 16) + b % 16 = b := by omega
    rw [hb16]

theorem jsSplit_ne_nil (sep : Char) (l : List Char) : jsSplit sep l ≠ [] := by
  cases l with
  | nil => simp [jsSplit]
  | cons c rest =>
    rcases h : jsSplit sep rest with _ | ⟨part, parts⟩
    · simp [jsSplit, h]
    · simp only [jsSplit, h]
      split <;> simp

theorem jsSplit_sep_cons (sep : Char) (l : List Char) :
    jsSplit sep (sep :: l) = [] :: jsSplit sep l := by
  simp only [jsSplit]
  rcases h : jsSplit sep l with _ | ⟨part, parts⟩
  · exact absurd h (jsSplit_ne_nil sep l)
  · simp

theorem jsSplit_cons_ne (sep c : Char) (l : List Char) (hc : c ≠ sep) :
    jsSplit sep (c :: l) =
      (c :: (jsSplit sep l).headD []) :: (jsSplit sep l).tail := by
  simp only [jsSplit]
  rcases h : jsSplit sep l with _ | ⟨part, parts⟩
  · exact absurd h (jsSplit_ne_nil sep l)
  · simp [hc]

theorem jsSplit_no_sep {sep : Char} {l : List Char} (h : sep ∉ l) : jsSplit sep l = [l] := by
  induction l with
  | nil => rfl
  | cons c rest ih =>
    have hc : c ≠ sep := fun he => h (he ▸ List.mem_cons_self c rest)
    have hrest : sep ∉ rest := fun hm => h (List.mem_cons_of_mem c hm)
    rw [jsSplit_cons_ne sep c rest hc, ih hrest]
    rfl

theorem jsSplit_append_sep {sep : Char} {a : List Char} (b : List Char) (h : sep ∉ a) :
    jsSplit sep (a ++ sep :: b) = a :: jsSplit sep b := by
  induction a with
  | nil => simpa using jsSplit_sep_cons sep b
  | cons c rest ih =>
    have hc : c ≠ sep := fun he => h (he ▸ List.mem_cons_self c rest)
    have hrest : sep ∉ rest := fun hm => h (List.mem_cons_of_mem c hm)
    rw [List.cons_append, jsSplit_cons_ne sep c (rest ++ sep :: b) hc, ih hrest]
    rfl

/-- **C2** (counterexample). The claim says `comparePasswords` returns `false`
on a malformed stored credential; on a stored string with no `.` separator the
code instead calls `scrypt` with an `undefined` salt, which throws — the
operation errors rather than returning `false`. -/
theorem comparePasswords_malformed_counterexample :
    comparePasswords demoScrypt "pw".data "deadbeef".data = .error .saltUndefined ∧
      comparePasswords demoScrypt "pw".data "deadbeef".data ≠ .ok false := by
  refine ⟨rfl, fun h => ?_⟩
  rw [show comparePasswords demoScrypt "pw".data "deadbeef".data = .error .saltUndefined
    from rfl] at h
  exact Except.noConfusion h

/-- **C2** (amended). For every supplied password and malformed stored
credential, `comparePasswords` *throws* (models as `Except.error`) rather than
returning `false`: a stored value with no `.` separator leaves `salt`
undefined and `scrypt` throws a `TypeError`; a stored value whose hash part
does not hex-decode to a key of the derived length (64 bytes in the source)
makes `timingSafeEqual` throw a `RangeError`. -/
theorem comparePasswords_throws_on_malformed :
    (∀ (scryptFn : List Char → List Char → List Nat) (supplied stored : List Char),
      '.' ∉ stored →
      comparePasswords scryptFn supplied stored = .error .saltUndefined) ∧
    (∀ (scryptFn : List Char → List Char → List Nat) (supplied hashPart salt : List Char),
      '.' ∉ hashPart → '.' ∉ salt →
      (scryptFn supplied salt).length = 64 →
      (hexDecode hashPart).length ≠ 64 →
      comparePasswords scryptFn supplied (hashPart ++ '.' :: salt) = .error .lengthMismatch) := by
  constructor
  · intro scryptFn supplied stored hdot
    unfold comparePasswords
    rw [jsSplit_no_sep hdot]
    rfl
  · intro scryptFn supplied hashPart salt hdh hds hlen hne
    unfold comparePasswords
    rw [jsSplit_append_sep salt hdh, jsSplit_no_sep hds]
    simp only [List.get?, List.headD]
    rw [if_neg (by rw [hlen]; exact hne)]

/-- **C2** (witness for the amended theorem). -/
theorem comparePasswords_throws_on_malformed_witness :
    comparePasswords demoScrypt "pw".data "deadbeef".data = .error .saltUndefined ∧
      comparePasswords demoScrypt "pw".data ("00".data ++ '.' :: "aabb".data) =
        .error .lengthMismatch := by
  constructor
  · exact comparePasswords_throws_on_malformed.1 demoScrypt "pw".data "deadbeef".data
      (by decide)
  · exact comparePasswords_throws_on_malformed.2 demoScrypt "pw".data "00".data "aabb".data
      (by decide) (by decide) (by decide) (by decide)

/-- **C6**. Password hashing round-trips: for every password, every choice of
salt bytes and every (deterministic) scrypt whose derived keys are byte lists,
`comparePasswords p (hashPassword p)` evaluates to `true`: `hashPassword`
stores `hex(derivedKey) ++ "." ++ hex(saltBytes)`, and `comparePasswords`
splits the stored string at the `.`, re-derives the key from the same salt and
compares. -/
theorem comparePasswords_hashPassword (scryptFn : List Char → List Char → List Nat)
    (saltBytes : List Nat) (password : List Char)
    (hkey : ∀ b ∈ scryptFn password (hexEncode saltBytes), b < 256) :
    comparePasswords scryptFn password (hashPassword scryptFn saltBytes password) =
      .ok true := by
  unfold comparePasswords hashPassword
  rw [jsSplit_append_sep (hexEncode saltBytes) (dot_not_mem_hexEncode _),
    jsSplit_no_sep (dot_not_mem_hexEncode saltBytes)]
  simp only [List.get?, List.headD]
  rw [hexDecode_hexEncode hkey, if_pos rfl, beq_self_eq_true]

/-- **C6** (witness). -/
theorem comparePasswords_hashPassword_witness :
    comparePasswords demoScrypt "Str0ng!Pass9".data
      (hashPassword demoScrypt (List.replicate 16 7) "Str0ng!Pass9".data) = .ok true :=
  comparePasswords_hashPassword demoScrypt (List.replicate 16 7) "Str0ng!Pass9".data
    (by intro b hb; simp [demoScrypt] at hb; omega)

theorem getRefreshToken_revoke (store : List RefreshTokenRecord) (tokenId userId : String) :
    getRefreshToken (revokeRefreshToken store tokenId userId) tokenId userId = none := by
  unfold getRefreshToken revokeRefreshToken
  rw [List.find?_eq_none]
  intro r hr
  have hmem := (List.mem_filter.mp hr).2
  simp only [Bool.not_eq_true'] at hmem
  simp [hmem]

/-- **C1**. Refresh tokens are single-use: once the rotation flow has called
`revokeRefreshToken` with the `tokenId`/`userId` carried by the token, the
`(tokenId, userId)` lookup finds no row, so a second `verifyRefreshToken`
call on the same token returns `null` — at any clock value. -/
theorem refresh_token_single_use (env : TokenEnv) (store : List RefreshTokenRecord)
    (now : Nat) (t : String) (p : RefreshTokenPayload)
    (hdec : env.decodeRefresh t = some p) :
    getRefreshToken (revokeRefreshToken store p.tokenId p.userId) p.tokenId p.userId = none ∧
      verifyRefreshToken env (revokeRefreshToken store p.tokenId p.userId) now t = none := by
  refine ⟨getRefreshToken_revoke store p.tokenId p.userId, ?_⟩
  simp [verifyRefreshToken, hdec, getRefreshToken_revoke store p.tokenId p.userId]

/-- **C1** (witness): with the backing record present the token verifies;
after revocation of `(tid1, u1)` the same token is invalid. -/
theorem refresh_token_single_use_witness :
    verifyRefreshToken cEnvRefresh [⟨"u1", "tid1", 2000⟩] 5 "tokR" = some ⟨"u1", "tid1", 1000⟩ ∧
      verifyRefreshToken cEnvRefresh
        (revokeRefreshToken [⟨"u1", "tid1", 2000⟩] "tid1" "u1") 5 "tokR" = none :=
  ⟨by decide,
    (refresh_token_single_use cEnvRefresh [⟨"u1", "tid1", 2000⟩] 5 "tokR"
      ⟨"u1", "tid1", 1000⟩ (by decide)).2⟩

/-- **C3**. The middleware's step order: missing token, then blacklist, then
signature/expiry, then user lookup.  In particular a blacklisted token is
rejected `401`/`TOKEN_REVOKED` even when `verifyAccessToken` would still
succeed on it. -/
theorem authenticateToken_step_order :
    (∀ env bl now req, extractToken req = none →
      authenticateToken env bl now req =
        .reject 401 "Access token is required" "TOKEN_MISSING") ∧
    (∀ env bl now req t p, extractToken req = some t →
      isTokenBlacklisted bl t = true →
      verifyAccessToken env now t = some p →
      authenticateToken env bl now req =
        .reject 401 "Token has been revoked" "TOKEN_REVOKED") ∧
    (∀ env bl now req t, extractToken req = some t →
      isTokenBlacklisted bl t = false →
      verifyAccessToken env now t = none →
      authenticateToken env bl now req =
        .reject 401 "Invalid or expired token" "TOKEN_INVALID") ∧
    (∀ env bl now req t p, extractToken req = some t →
      isTokenBlacklisted bl t = false →
      verifyAccessToken env now t = some p →
      env.getUser p.userId = none →
      authenticateToken env bl now req = .reject 401 "User not found" "USER_NOT_FOUND") ∧
    (∀ env bl now req t p u, extractToken req = some t →
      isTokenBlacklisted bl t = false →
      verifyAccessToken env now t = some p →
      env.getUser p.userId = some u →
      authenticateToken env bl now req = .proceed u) := by
  refine ⟨?_, ?_, ?_, ?_, ?_⟩
  · intro env bl now req hext
    simp [authenticateToken, hext]
  · intro env bl now req t p hext hbl _
    simp [authenticateToken, hext, hbl]
  · intro env bl now req t hext hbl hver
    simp [authenticateToken, hext, hbl, hver]
  · intro env bl now req t p hext hbl hver hu
    simp [authenticateToken, hext, hbl, hver, hu]
  · intro env bl now req t p u hext hbl hver hu
    simp [authenticateToken, hext, hbl, hver, hu]

/-- **C3** (witness): at `now = 5` the token would verify (`5 < 1000`) and the
user exists, yet a blacklist entry makes the middleware answer
`401 TOKEN_REVOKED`. -/
theorem authenticateToken_step_order_witness :
    authenticateToken cEnvAuth [⟨"tokA", 1000⟩] 5 cReqAuth =
      .reject 401 "Token has been revoked" "TOKEN_REVOKED" :=
  authenticateToken_step_order.2.1 cEnvAuth [⟨"tokA", 1000⟩] 5 cReqAuth "tokA"
    ⟨"u1", "a@x.io", "student", 1000⟩ (by decide) (by decide) (by decide)

/-- **C5**. Expired rows are already invalid before the sweep deletes them:
(1) a refresh token whose backing row has `expiresAt < now` fails
`verifyRefreshToken` even though the row still exists; (2) every blacklist
entry the code ever inserts records the token's own `exp` as its
`expiresAt`; (3) consequently, when a blacklist entry for a presented token
has expired, the middleware rejects the request no matter what the blacklist
table contains — with the dead entry present, or with it purged, the token is
equally unacceptable, so the sweep is cleanup only. -/
theorem expired_rows_already_invalid :
    (∀ (env : TokenEnv) store now t p r,
      env.decodeRefresh t = some p →
      getRefreshToken store p.tokenId p.userId = some r →
      r.expiresAt < now →
      verifyRefreshToken env store now t = none) ∧
    (∀ (env : TokenEnv) now bl t, ∀ e ∈ blacklistTokenOp env now bl t,
      e ∈ bl ∨ ∃ p, env.decodeAccess e.token = some p ∧ e.expiresAt = p.exp) ∧
    (∀ (env : TokenEnv) now req t p (e : BlacklistedTokenEntry),
      extractToken req = some t →
      env.decodeAccess t = some p →
      e.token = t → e.expiresAt = p.exp → e.expiresAt < now →
      ∀ bl u, authenticateToken env bl now req ≠ .proceed u) := by
  refine ⟨?_, ?_, ?_⟩
  · intro env store now t p r hdec hrec hexp
    simp [verifyRefreshToken, hdec, hrec, hexp]
  · intro env now bl t e he
    rcases hdec : env.decodeAccess t with _ | p
    · simp only [blacklistTokenOp, hdec] at he
      exact Or.inl he
    · simp only [blacklistTokenOp, hdec] at he
      by_cases hexp : p.exp ≤ now
      · rw [if_pos hexp] at he
        exact Or.inl he
      · rw [if_neg hexp] at he
        rcases List.mem_cons.mp he with rfl | hbl
        · exact Or.inr ⟨p, hdec, rfl⟩
        · exact Or.inl hbl
  · intro env now req t p e hext hdec htok hexp hlt bl u h
    have hverify : verifyAccessToken env now t = none := by
      simp only [verifyAccessToken, hdec]
      rw [if_pos (by omega)]
    simp only [authenticateToken, hext, hverify] at h
    split at h <;> exact AuthResult.noConfusion h

/-- **C5** (witness): at `now = 100` the refresh row `expiresAt = 60 < 100`
still exists but the token is invalid; and with a dead blacklist entry
`⟨tokB, 50⟩` the middleware does not accept `"tokB"` whether the entry is
still in the table or already purged. -/
theorem expired_rows_already_invalid_witness :
    verifyRefreshToken cEnvExpiry [⟨"u2", "tid2", 60⟩] 100 "tokS" = none ∧
      authenticateToken cEnvExpiry [⟨"tokB", 50⟩] 100 cReqExpiry ≠
        .proceed ⟨"u2", "b@x.io", "stored.hash", "student"⟩ ∧
      authenticateToken cEnvExpiry [] 100 cReqExpiry ≠
        .proceed ⟨"u2", "b@x.io", "stored.hash", "student"⟩ :=
  ⟨expired_rows_already_invalid.1 cEnvExpiry [⟨"u2", "tid2", 60⟩] 100 "tokS"
      ⟨"u2", "tid2", 1000⟩ ⟨"u2", "tid2", 60⟩ (by decide) (by decide) (by decide),
    expired_rows_already_invalid.2.2 cEnvExpiry 100 cReqExpiry "tokB"
      ⟨"u2", "b@x.io", "student", 50⟩ ⟨"tokB", 50⟩ (by decide) (by decide) rfl rfl
      (by decide) [⟨"tokB", 50⟩] _,
    expired_rows_already_invalid.2.2 cEnvExpiry 100 cReqExpiry "tokB"
      ⟨"u2", "b@x.io", "student", 50⟩ ⟨"tokB", 50⟩ (by decide) (by decide) rfl rfl
      (by decide) [] _⟩

/-- **C4** (counterexample).  The claim says every logout request completes
successfully even when the presented tokens are invalid; but the route is
gated by `authenticateToken`, so a logout request whose access token does not
verify is rejected `401 TOKEN_INVALID` and the handler never runs. -/
theorem logout_route_counterexample :
    (logoutRoute cEnvLogout 0 ⟨[], []⟩ cReqLogout).1 =
        ⟨401, "Invalid or expired token", some "TOKEN_INVALID"⟩ ∧
      (logoutRoute cEnvLogout 0 ⟨[], []⟩ cReqLogout).1 ≠ ⟨200, "Logout successful", none⟩ := by
  constructor <;> decide

/-- **C4** (amended).  Logout always succeeds *provided the request passes the
auth middleware* (valid, non-blacklisted access token of an existing user):
the handler then answers `200 "Logout successful"` unconditionally, treating
an invalid or revoked refresh token as a no-op (the refresh store is left
unchanged).  When the access token itself is missing, blacklisted or invalid,
the middleware rejects the request with `401` before the handler runs. -/
theorem logout_succeeds_when_middleware_passes (env : TokenEnv) (now : Nat)
    (st : TokenStoreState) (req : AuthRequest) (u : UserRec)
    (h : authenticateToken env st.blacklist now req = .proceed u) :
    (logoutRoute env now st req).1 = ⟨200, "Logout successful", none⟩ ∧
      (∀ rt, req.cookieRefreshToken = some rt →
        verifyRefreshToken env st.refreshStore now rt = none →
        (logoutRoute env now st req).2.refreshStore = st.refreshStore) := by
  constructor
  · simp [logoutRoute, h, logoutHandler]
  · intro rt hrt hver
    simp only [logoutRoute, h, logoutHandler, hrt, hver]
    split <;> rfl

/-- **C4** (witness for the amended theorem). -/
theorem logout_succeeds_when_middleware_passes_witness :
    (logoutRoute cEnvLogoutOk 7 ⟨[], []⟩ cReqLogoutOk).1 = ⟨200, "Logout successful", none⟩ ∧
      (logoutRoute cEnvLogoutOk 7 ⟨[], []⟩ cReqLogoutOk).2.refreshStore = [] := by
  have h := logout_succeeds_when_middleware_passes cEnvLogoutOk 7 ⟨[], []⟩ cReqLogoutOk
    ⟨"u3", "c@x.io", "stored.hash", "student"⟩ (by decide)
  exact ⟨h.1, h.2 "refX" rfl (by decide)⟩

/-- **C9**.  Login failures are indistinguishable by cause: the response when
no user exists for the email equals — same status, same error string, same
code — the response when the user exists but password verification returns
`false`. -/
theorem login_failures_indistinguishable (env env' : TokenEnv)
    (scryptFn : List Char → List Char → List Nat)
    (email password email' password' : String) (u : UserRec)
    (h1 : env.getUserByEmail email = none)
    (h2 : env'.getUserByEmail email' = some u)
    (h3 : comparePasswords scryptFn password'.data u.password.data = .ok false) :
    loginHandler env scryptFn email password = loginHandler env' scryptFn email' password' ∧
      loginHandler env scryptFn email password =
        ⟨401, "Invalid credentials", some "INVALID_CREDENTIALS"⟩ := by
  constructor <;> simp [loginHandler, h1, h2, h3]

/-- **C9** (witness): unknown email vs. wrong password produce the same
generic `401` response. -/
theorem login_failures_indistinguishable_witness :
    loginHandler cEnvLoginEmpty demoScryptKeyed "ghost@x.io" "whatever" =
        loginHandler cEnvLogin demoScryptKeyed "ada@x.io" "wrong" ∧
      loginHandler cEnvLoginEmpty demoScryptKeyed "ghost@x.io" "whatever" =
        ⟨401, "Invalid credentials", some "INVALID_CREDENTIALS"⟩ :=
  login_failures_indistinguishable cEnvLoginEmpty cEnvLogin demoScryptKeyed
    "ghost@x.io" "whatever" "ada@x.io" "wrong" ⟨"u4", "ada@x.io", "00.aa", "student"⟩
    (by decide) (by decide) (by decide)

theorem score_def (p : List Char) :
    (calculatePasswordStrength p).score =
      (if 8 ≤ p.length then 1 else 0) + (if 12 ≤ p.length then 1 else 0)
      + (if 16 ≤ p.length then 1 else 0)
      + (if p.any isLowerAlpha then 1 else 0) + (if p.any isUpperAlpha then 1 else 0)
      + (if p.any isDigitChar then 1 else 0) + (if p.any isSpecialChar then 1 else 0)
      + (if hasRepeated p then 0 else 1) + (if hasSequential p then 0 else 1) := rfl

theorem strength_eq_specBand (p : List Char) :
    (calculatePasswordStrength p).strength = specBand (calculatePasswordStrength p).score := rfl

theorem ite_le_one (c : Prop) [Decidable c] : (if c then (1 : Nat) else 0) ≤ 1 := by
  split <;> omega

theorem score_le_nine (p : List Char) : (calculatePasswordStrength p).score ≤ 9 := by
  rw [score_def]
  have h1 := ite_le_one (8 ≤ p.length)
  have h2 := ite_le_one (12 ≤ p.length)
  have h3 := ite_le_one (16 ≤ p.length)
  have h4 := ite_le_one (p.any isLowerAlpha = true)
  have h5 := ite_le_one (p.any isUpperAlpha = true)
  have h6 := ite_le_one (p.any isDigitChar = true)
  have h7 := ite_le_one (p.any isSpecialChar = true)
  have h8 : (if hasRepeated p then 0 else 1) ≤ 1 := by split <;> omega
  have h9 : (if hasSequential p then 0 else 1) ≤ 1 := by split <;> omega
  omega

/-- **C8**.  The strength scorer is a pure function (so trivially stable
across repeated calls) assigning at most 9 points, its band is exactly the
spec's bucketing of the score (`very-weak` ≤2, `weak` ≤4, `fair` ≤6,
`good` ≤8, `strong` 9), and on `"Passw0rd!"` the hard gate passes, the score
is 7 (length ≥ 8, all four classes, no repeated run, no sequential run) and
the band is `good`. -/
theorem strength_scorer_bands :
    (∀ p : List Char, (calculatePasswordStrength p).score ≤ 9 ∧
      (calculatePasswordStrength p).strength = specBand (calculatePasswordStrength p).score) ∧
    passwordValidationAccepts "Passw0rd!".data = true ∧
    (calculatePasswordStrength "Passw0rd!".data).score = 7 ∧
    (calculatePasswordStrength "Passw0rd!".data).strength = PasswordStrength.good :=
  ⟨fun p => ⟨score_le_nine p, strength_eq_specBand p⟩, by decide, by decide, by decide⟩

/-- **C10**.  Every password the hard gate accepts scores at least 7 (its
length is ≥ 8, it has all four character classes and neither forbidden
pattern, each worth one point), so its band is `good` or `strong` and the
registration handler's weak-password rejection branch can never fire on
schema-validated input. -/
theorem gate_implies_good_or_strong (p : List Char)
    (h : passwordValidationAccepts p = true) :
    7 ≤ (calculatePasswordStrength p).score ∧
      ((calculatePasswordStrength p).strength = PasswordStrength.good ∨
        (calculatePasswordStrength p).strength = PasswordStrength.strong) ∧
      registrationRejectsAsWeak p = false := by
  simp only [passwordValidationAccepts, Bool.and_eq_true, decide_eq_true_eq,
    Bool.not_eq_true'] at h
  obtain ⟨⟨⟨⟨⟨⟨⟨⟨h8, h128⟩, hlow⟩, hup⟩, hdig⟩, hsp⟩, hcp⟩, hseq⟩, hrep⟩ := h
  have hscore : 7 ≤ (calculatePasswordStrength p).score := by
    have e1 : (if 8 ≤ p.length then (1 : Nat) else 0) = 1 := if_pos h8
    have e4 : (if p.any isLowerAlpha then (1 : Nat) else 0) = 1 := if_pos hlow
    have e5 : (if p.any isUpperAlpha then (1 : Nat) else 0) = 1 := if_pos hup
    have e6 : (if p.any isDigitChar then (1 : Nat) else 0) = 1 := if_pos hdig
    have e7 : (if p.any isSpecialChar then (1 : Nat) else 0) = 1 := if_pos hsp
    have e8 : (if hasRepeated p then (0 : Nat) else 1) = 1 := if_neg (by simp [hrep])
    have e9 : (if hasSequential p then (0 : Nat) else 1) = 1 := if_neg (by simp [hseq])
    rw [score_def, e1, e4, e5, e6, e7, e8, e9]
    have h12 := ite_le_one (12 ≤ p.length)
    have h16 := ite_le_one (16 ≤ p.length)
    omega
  have hnine := score_le_nine p
  have hband : (calculatePasswordStrength p).strength = PasswordStrength.good ∨
      (calculatePasswordStrength p).strength = PasswordStrength.strong := by
    rw [strength_eq_specBand]
    unfold specBand
    split_ifs with h1 h2 h3 h4
    · omega
    · omega
    · omega
    · exact Or.inl rfl
    · exact Or.inr rfl
  refine ⟨hscore, hband, ?_⟩
  rcases hband with hg | hg <;> simp [registrationRejectsAsWeak, hg]

/-- **C10** (witness): `"Passw0rd!"` passes the gate, and indeed scores ≥ 7
with band `good`/`strong` and is not rejected as weak at registration. -/
theorem gate_implies_good_or_strong_witness :
    7 ≤ (calculatePasswordStrength "Passw0rd!".data).score ∧
      ((calculatePasswordStrength "Passw0rd!".data).strength = PasswordStrength.good ∨
        (calculatePasswordStrength "Passw0rd!".data).strength = PasswordStrength.strong) ∧
      registrationRejectsAsWeak "Passw0rd!".data = false :=
  gate_implies_good_or_strong "Passw0rd!".data (by decide)

/-- **C7** (counterexample).  `"Aa1!b\n\n\n"` repeats the character `'\n'`
three times consecutively, so under the claim's wording it must be rejected;
the schema accepts it, because the repeated-characters regex `(.)` cannot
match a line terminator. -/
theorem password_gate_counterexample :
    passwordValidationAccepts ['A', 'a', '1', '!', 'b', '\n', '\n', '\n'] = true ∧
      specHasTripleRepeat ['A', 'a', '1', '!', 'b', '\n', '\n', '\n'] = true ∧
      specPasswordAccept ['A', 'a', '1', '!', 'b', '\n', '\n', '\n'] = false := by
  refine ⟨by decide, by decide, by decide⟩

theorem char_toNat_inj {a b : Char} (h : a.toNat = b.toNat) : a = b := by
  have hc := congrArg Char.ofNat h
  rwa [Char.ofNat_toNat, Char.ofNat_toNat] at hc

theorem toLower_toNat (c : Char) :
    (Char.toLower c).toNat =
      if 65 ≤ c.toNat ∧ c.toNat ≤ 90 then c.toNat + 32 else c.toNat := by
  by_cases h : 65 ≤ c.toNat ∧ c.toNat ≤ 90
  · rw [if_pos h]
    unfold Char.toLower
    rw [if_pos ⟨h.1, h.2⟩]
    exact toNat_ofNat_of_valid (isValidChar_of_lt (by omega))
  · rw [if_neg h]
    unfold Char.toLower
    rw [if_neg h]

theorem toLower_eq_of_digit {c d : Char} (hd : isDigitChar d = true)
    (h : Char.toLower c = d) : c = d := by
  simp only [isDigitChar, Bool.and_eq_true, decide_eq_true_eq] at hd
  have ht := congrArg Char.toNat h
  rw [toLower_toNat] at ht
  by_cases hc : 65 ≤ c.toNat ∧ c.toNat ≤ 90
  · rw [if_pos hc] at ht
    omega
  · rw [if_neg hc] at ht
    exact char_toNat_inj ht

theorem toLower_digit_fix {d : Char} (hd : isDigitChar d = true) : Char.toLower d = d := by
  simp only [isDigitChar, Bool.and_eq_true, decide_eq_true_eq] at hd
  apply char_toNat_inj
  rw [toLower_toNat, if_neg (by omega)]

theorem map_toLower_eq_digits {l ds : List Char} (hd : ∀ d ∈ ds, isDigitChar d = true)
    (h : l.map Char.toLower = ds) : l = ds := by
  induction l generalizing ds with
  | nil =>
    simp only [List.map_nil] at h
    exact h
  | cons a l ih =>
    cases ds with
    | nil => simp at h
    | cons d ds' =>
      simp only [List.map_cons, List.cons.injEq] at h
      obtain ⟨h1, h2⟩ := h
      have ha : a = d := toLower_eq_of_digit (hd d (by simp)) h1
      rw [ha, ih (fun x hx => hd x (by simp [hx])) h2]

theorem containsSub_digits_lower (p ds : List Char) (hd : ∀ d ∈ ds, isDigitChar d = true) :
    containsSub ds (lowerStr p) = containsSub ds p := by
  unfold containsSub lowerStr
  simp only [decide_eq_decide]
  constructor
  · rintro ⟨s, t, hst⟩
    have hmap : List.map Char.toLower p = s ++ ds ++ t := hst.symm
    rw [List.append_assoc] at hmap
    obtain ⟨l₁, l₂, hp, hm1, hm2⟩ := List.map_eq_append_iff.mp hmap
    obtain ⟨l₃, l₄, hl₂, hm3, hm4⟩ := List.map_eq_append_iff.mp hm2
    have hl₃ : l₃ = ds := map_toLower_eq_digits hd hm3
    exact ⟨l₁, l₄, by rw [hp, hl₂, hl₃, List.append_assoc]⟩
  · intro h
    have hmap := h.map Char.toLower
    have hds : ds.map Char.toLower = ds := by
      clear h hmap
      induction ds with
      | nil => rfl
      | cons d ds' ih =>
        simp only [List.map_cons, toLower_digit_fix (hd d (by simp)),
          ih (fun x hx => hd x (by simp [hx]))]
    rwa [hds] at hmap

theorem seqTriples_range_form :
    seqTriples =
      (List.range 24).map
        (fun i => [Char.ofNat (97 + i), Char.ofNat (98 + i), Char.ofNat (99 + i)])
      ++ (List.range 8).map
        (fun i => [Char.ofNat (48 + i), Char.ofNat (49 + i), Char.ofNat (50 + i)]) := by
  decide

theorem contains_seqTriples_eq (u v w : Char) :
    seqTriples.contains [u, v, w] = ascLowered u v w := by
  rw [Bool.eq_iff_iff]
  rw [List.contains, List.elem_iff, seqTriples_range_form]
  simp only [List.mem_append, List.mem_map, List.mem_range, ascLowered, isLowerAlpha,
    isDigitChar, Bool.and_eq_true, Bool.or_eq_true, decide_eq_true_eq, beq_iff_eq]
  constructor
  · rintro (⟨i, hi, heq⟩ | ⟨i, hi, heq⟩) <;>
      simp only [List.cons.injEq, and_true] at heq <;>
      obtain ⟨h1, h2, h3⟩ := heq <;>
      rw [← h1, ← h2, ← h3] <;>
      rw [toNat_ofNat_of_valid (isValidChar_of_lt (by omega)),
        toNat_ofNat_of_valid (isValidChar_of_lt (by omega)),
        toNat_ofNat_of_valid (isValidChar_of_lt (by omega))] <;>
      omega
  · rintro ⟨⟨hcls | hcls, hv⟩, hw⟩
    · refine Or.inl ⟨u.toNat - 97, by omega, ?_⟩
      have e1 : 97 + (u.toNat - 97) = u.toNat := by omega
      have e2 : 98 + (u.toNat - 97) = v.toNat := by omega
      have e3 : 99 + (u.toNat - 97) = w.toNat := by omega
      rw [e1, e2, e3, Char.ofNat_toNat, Char.ofNat_toNat, Char.ofNat_toNat]
    · refine Or.inr ⟨u.toNat - 48, by omega, ?_⟩
      have e1 : 48 + (u.toNat - 48) = u.toNat := by omega
      have e2 : 49 + (u.toNat - 48) = v.toNat := by omega
      have e3 : 50 + (u.toNat - 48) = w.toNat := by omega
      rw [e1, e2, e3, Char.ofNat_toNat, Char.ofNat_toNat, Char.ofNat_toNat]

theorem hasSequential_eq_specAscendingRun (p : List Char) :
    hasSequential p = specHasAscendingRun p := by
  unfold hasSequential lowerStr
  induction p with
  | nil => rfl
  | cons a p ih =>
    cases p with
    | nil => rfl
    | cons b p2 =>
      cases p2 with
      | nil => rfl
      | cons c rest =>
        simp only [List.map_cons] at ih ⊢
        simp only [hasSequentialLowered, specHasAscendingRun, specAscTriple,
          contains_seqTriples_eq, ih]

theorem hasRepeated_eq_specTripleRepeatAmended (p : List Char) :
    hasRepeated p = specHasTripleRepeatAmended p := by
  induction p with
  | nil => rfl
  | cons a p ih =>
    cases p with
    | nil => rfl
    | cons b p2 =>
      cases p2 with
      | nil => rfl
      | cons c rest =>
        simp only [hasRepeated, specHasTripleRepeatAmended, ih]

theorem hasCommonPattern_eq_specDenylisted (p : List Char) :
    hasCommonPattern p = specDenylisted p := by
  unfold hasCommonPattern specDenylisted
  rw [containsSub_digits_lower p ['1', '2', '3', '4', '5', '6'] (by decide)]

/-- **C7** (amended).  The hard gate accepts a password iff all the claim's
conditions hold, with one correction forced by the counterexample: the
repeated-run condition only covers repeats of characters the regex dot can
match, so a run of three identical line terminators (`\n`, `\r`, U+2028,
U+2029) does not cause rejection.  Everything else is as claimed: length
8–128, all four character classes, the case-insensitive denylist, and no
3-character ascending run of letters (case-insensitive) or digits. -/
theorem password_gate_iff_spec (p : List Char) :
    passwordValidationAccepts p = specPasswordAcceptAmended p := by
  unfold passwordValidationAccepts specPasswordAcceptAmended
  rw [hasCommonPattern_eq_specDenylisted, hasSequential_eq_specAscendingRun,
    hasRepeated_eq_specTripleRepeatAmended]

end CodeCraft
